import Mathlib

/-!
# Verification of the blight key-value wrapper

A shallow embedding of `blight.go`, a thin convenience layer over the bbolt
embedded key-value engine.  Byte strings are modelled as `List Nat`; the
engine state is an association list from bucket names to buckets, where a
bucket holds a sorted association list of key/value records together with
its monotonic sequence counter (a 64-bit unsigned integer, modelled as a
`Nat` reduced modulo `2 ^ 64` where the Go code would overflow).

The engine itself (bbolt) is an external dependency; its primitives are
modelled by their documented semantics:
 * `Tx.CreateBucketIfNotExists` creates an empty bucket when absent;
 * `Tx.DeleteBucket` fails with a bucket-not-found error when absent;
 * `Bucket.Put` upserts, keeping records in ascending byte-wise key order;
 * `Bucket.Get` returns nil (here `none`) for an absent key;
 * `Bucket.Delete` is a no-op on an absent key;
 * `Bucket.NextSequence` increments the counter (wrapping at `2 ^ 64`)
   and returns the incremented value;
 * a transaction whose callback returns an error (or panics) is rolled
   back, leaving the store unchanged.
-/

namespace Blight

/-- A byte string (Go `[]byte`).  Entries are meant to be bytes, but none of
the wrapper's logic depends on the `< 256` bound, so it is not imposed. -/
abbrev Bytes := List Nat

/-- Byte-wise lexicographic strict order on byte strings, as used by the
engine to order keys within a bucket (`bytes.Compare < 0`). -/
def bytesLt : Bytes → Bytes → Bool
  | _, [] => false
  | [], _ :: _ => true
  | a :: as, b :: bs =>
    if a < b then true
    else if a = b then bytesLt as bs
    else false

/-- Errors surfaced by the wrapper: the bucket-not-found error produced by
`fmt.Errorf("bucket %q not found", ...)`, JSON encode/decode failures, and
faults reported by the engine itself. -/
inductive BlightError where
  | bucketNotFound (name : Bytes)
  | serializationError
  | engineError
  deriving Repr, DecidableEq

/-- A bucket: its records (kept in ascending byte-wise key order by the
engine's B-tree) and its `NextSequence` counter. -/
structure Bucket where
  data : List (Bytes × Bytes)
  seq : Nat
  deriving Repr, DecidableEq

def Bucket.empty : Bucket := ⟨[], 0⟩

/-- The store: the root mapping from bucket names to buckets. -/
abbrev Store := List (Bytes × Bucket)

/-- Association-list lookup of a record by key (`Bucket.Get`; `none` models
the nil slice returned for an absent key). -/
def lookupKV : List (Bytes × Bytes) → Bytes → Option Bytes
  | [], _ => none
  | (k, v) :: rest, key => if k = key then some v else lookupKV rest key

/-- `Bucket.Put`: upsert a record, keeping the list in ascending key order. -/
def putKV : List (Bytes × Bytes) → Bytes → Bytes → List (Bytes × Bytes)
  | [], k, v => [(k, v)]
  | (k', v') :: rest, k, v =>
    if k = k' then (k, v) :: rest
    else if bytesLt k k' then (k, v) :: (k', v') :: rest
    else (k', v') :: putKV rest k v

/-- `Bucket.Delete`: remove a record by key; no-op when the key is absent. -/
def removeKV : List (Bytes × Bytes) → Bytes → List (Bytes × Bytes)
  | [], _ => []
  | (k, v) :: rest, key => if k = key then rest else (k, v) :: removeKV rest key

/-- `Tx.Bucket`: look a bucket up by name, `none` when it does not exist. -/
def lookupBucket : Store → Bytes → Option Bucket
  | [], _ => none
  | (n, b) :: rest, name => if n = name then some b else lookupBucket rest name

/-- Rewrite the bucket stored under `name` (a mutation through a bucket
handle obtained from the transaction). -/
def updateBucket (s : Store) (name : Bytes) (f : Bucket → Bucket) : Store :=
  match s with
  | [] => []
  | (n, b) :: rest =>
    if n = name then (n, f b) :: rest else (n, b) :: updateBucket rest name f

/-- `Tx.CreateBucketIfNotExists`: create an empty bucket when absent. -/
def createBucketIfNotExists (s : Store) (name : Bytes) : Store :=
  match lookupBucket s name with
  | some _ => s
  | none => s ++ [(name, Bucket.empty)]

/-- Remove a bucket from the root mapping. -/
def removeBucket : Store → Bytes → Store
  | [], _ => []
  | (n, b) :: rest, name =>
    if n = name then rest else (n, b) :: removeBucket rest name

/-- `Tx.DeleteBucket`: fails with the engine's bucket-not-found error when
the bucket does not exist (the transaction is then rolled back). -/
def deleteBucketTx (s : Store) (name : Bytes) : Except BlightError Store :=
  match lookupBucket s name with
  | none => .error (.bucketNotFound name)
  | some _ => .ok (removeBucket s name)

/-- `Bucket.NextSequence`: increment the 64-bit counter (wrapping) and
return the incremented value. -/
def nextSequence (b : Bucket) : Nat × Bucket :=
  let id := (b.seq + 1) % 2 ^ 64
  (id, { b with seq := id })

/-- The first `k` base-256 digits of `v`, most significant first. -/
def digitsBE : Nat → Nat → Bytes
  | 0, _ => []
  | k + 1, v => v / 256 ^ k % 256 :: digitsBE k v

/-- `itob` returns an 8-byte big endian representation of `v`
(`binary.BigEndian.PutUint64`). -/
def itob (v : Nat) : Bytes :=
  [v / 256 ^ 7 % 256, v / 256 ^ 6 % 256, v / 256 ^ 5 % 256, v / 256 ^ 4 % 256,
   v / 256 ^ 3 % 256, v / 256 ^ 2 % 256, v / 256 ^ 1 % 256, v % 256]

/-- `Set`: one write transaction that creates the bucket if absent and then
upserts `key ↦ value` (blight.go lines 96–111). -/
def Set (s : Store) (bucket key value : Bytes) : Store :=
  updateBucket (createBucketIfNotExists s bucket) bucket
    (fun b => { b with data := putKV b.data key value })

/-- `Get`: one read transaction; bucket-not-found error when the bucket is
absent, otherwise the stored value, `none` for an absent key
(blight.go lines 142–155). -/
def Get (s : Store) (bucket key : Bytes) : Except BlightError (Option Bytes) :=
  match lookupBucket s bucket with
  | none => .error (.bucketNotFound bucket)
  | some b => .ok (lookupKV b.data key)

/-- `Append`: one write transaction that creates the bucket if absent,
draws the next sequence number and inserts the value under its 8-byte
big-endian encoding (blight.go lines 113–133). -/
def Append (s : Store) (bucket value : Bytes) : Store :=
  updateBucket (createBucketIfNotExists s bucket) bucket
    (fun b =>
      let idb := nextSequence b
      { idb.2 with data := putKV idb.2.data (itob idb.1) value })

/-- `Delete`: one write transaction; bucket-not-found error when the bucket
is absent, otherwise removes the key, succeeding even when the key is
absent (blight.go lines 218–229). -/
def Delete (s : Store) (bucket key : Bytes) : Except BlightError Store :=
  match lookupBucket s bucket with
  | none => .error (.bucketNotFound bucket)
  | some _ =>
    .ok (updateBucket s bucket (fun b => { b with data := removeKV b.data key }))

/-- `CreateBucket`: one write transaction around
`Tx.CreateBucketIfNotExists` (blight.go lines 44–52).  The only possible
failure is an engine fault, so the model returns no error. -/
def CreateBucket (s : Store) (bucket : Bytes) : Store × Option BlightError :=
  (createBucketIfNotExists s bucket, none)

/-- `DeleteBucket`: one write transaction around `Tx.DeleteBucket`
(blight.go lines 54–62); the engine's bucket-not-found error is returned
to the caller and rolls the transaction back. -/
def DeleteBucket (s : Store) (bucket : Bytes) : Store × Option BlightError :=
  match deleteBucketTx s bucket with
  | .error e => (s, some e)
  | .ok s' => (s', none)

/-- `ResetBucket`: one write transaction that calls `Tx.DeleteBucket`,
returns its error if any (rolling back), and otherwise recreates the
bucket empty (blight.go lines 231–241). -/
def ResetBucket (s : Store) (bucket : Bytes) : Store × Option BlightError :=
  match deleteBucketTx s bucket with
  | .error e => (s, some e)
  | .ok s' => (createBucketIfNotExists s' bucket, none)

/-- The sequence counter currently stored for `bucket` (0 when absent, as
for a freshly created bucket). -/
def seqOf (s : Store) (bucket : Bytes) : Nat :=
  ((lookupBucket s bucket).getD Bucket.empty).seq

/-- The key the next `Append` against `bucket` will use. -/
def appendKey (s : Store) (bucket : Bytes) : Bytes :=
  itob ((seqOf s bucket + 1) % 2 ^ 64)

/-- The value stored under `key` in `bucket`, when both exist. -/
def valueAt (s : Store) (bucket key : Bytes) : Option Bytes :=
  (lookupBucket s bucket).bind (fun b => lookupKV b.data key)

/-- `SetJSONBatch` (blight.go lines 64–86).  The JSON encoder's outcome is
the `marshalled` argument and the engine's `Batch` outcome is the `batchOk`
argument.  The Go control flow per branch:
 * encoding fails → the error is returned (lines 71–74);
 * the bucket does not exist → `tx.Bucket` yields nil and `bkt.Put` panics;
   the engine rolls the transaction back and re-raises, the deferred
   `recover` (lines 65–69) logs it, and the function returns its zero
   error value, nil;
 * `Batch` itself fails → its error is assigned to `err`, but the function
   ends with `return nil` (line 85), so no error reaches the caller and
   the write is not applied;
 * otherwise the record is upserted and nil is returned. -/
def SetJSONBatch (s : Store) (bucket key : Bytes)
    (marshalled : Except Unit Bytes) (batchOk : Bool) :
    Store × Option BlightError :=
  match marshalled with
  | .error _ => (s, some .serializationError)
  | .ok j =>
    match lookupBucket s bucket with
    | none => (s, none)
    | some _ =>
      if batchOk then
        (updateBucket s bucket (fun b => { b with data := putKV b.data key j }),
         none)
      else (s, none)

/-- An external JSON codec for values of type `V`, standing for the
`json.Marshal` / `json.Unmarshal` pair the wrapper delegates to. -/
structure JsonCodec (V : Type) where
  marshal : V → Except Unit Bytes
  unmarshal : Bytes → Except Unit V

/-- `SetJSON` (blight.go lines 31–38): serialize, then `Set`; an encoding
failure is returned as the serialization error. -/
def SetJSON {V : Type} (c : JsonCodec V) (s : Store) (bucket key : Bytes)
    (v : V) : Store × Option BlightError :=
  match c.marshal v with
  | .error _ => (s, some .serializationError)
  | .ok j => (Set s bucket key j, none)

/-- `GetJSON` (blight.go lines 157–163): `Get`, propagating its error, then
decode the returned bytes (the nil slice of an absent key decodes from the
empty byte string, which fails). -/
def GetJSON {V : Type} (c : JsonCodec V) (s : Store) (bucket key : Bytes) :
    Except BlightError V :=
  match Get s bucket key with
  | .error e => .error e
  | .ok v =>
    match c.unmarshal (v.getD []) with
    | .error _ => .error .serializationError
    | .ok out => .ok out

/-- `AllFunc` (part_000 lines 111–125): one read transaction that walks the
bucket's records with a cursor in ascending key order, invoking `fn` per
record; the result collects the callback invocations in cursor order.  The
variant of blight.go lines 165–193 dispatches the same invocations to a
bounded worker pool, so this list is its dispatch order; the interleaving
of callback executions is not modelled. -/
def AllFunc {α : Type} (s : Store) (bucket : Bytes) (fn : Bytes → Bytes → α) :
    Except BlightError (List α) :=
  match lookupBucket s bucket with
  | none => .error (.bucketNotFound bucket)
  | some b => .ok (b.data.map (fun p => fn p.1 p.2))

/-- A concrete codec used to witness C8: a natural number below 256 encodes
as its single byte. -/
def natByteCodec : JsonCodec Nat where
  marshal := fun n => if n < 256 then .ok [n] else .error ()
  unmarshal := fun l => match l with
    | [x] => .ok x
    | _ => .error ()

/-- Executable check that adjacent records are in strictly ascending
byte-wise key order. -/
def sortedKeysB : List (Bytes × Bytes) → Bool
  | [] => true
  | [_] => true
  | p :: q :: rest => bytesLt p.1 q.1 && sortedKeysB (q :: rest)

/-- A bucket's records are in strictly ascending byte-wise key order — the
invariant the engine's B-tree maintains. -/
def BucketSorted (b : Bucket) : Prop :=
  sortedKeysB b.data = true

instance (b : Bucket) : Decidable (BucketSorted b) :=
  inferInstanceAs (Decidable (sortedKeysB b.data = true))

/-! ## Association-list lemmas -/

theorem lookupKV_putKV_self (l : List (Bytes × Bytes)) (k v : Bytes) :
    lookupKV (putKV l k v) k = some v := by
  induction l with
  | nil => simp [putKV, lookupKV]
  | cons p rest ih =>
    obtain ⟨k', v'⟩ := p
    by_cases hk : k = k'
    · simp [putKV, hk, lookupKV]
    · by_cases hlt : bytesLt k k'
      · simp [putKV, hk, hlt, lookupKV]
      · simp [putKV, hk, hlt, lookupKV, Ne.symm hk, ih]

theorem lookupKV_putKV_ne (l : List (Bytes × Bytes)) (k v k' : Bytes)
    (h : k' ≠ k) : lookupKV (putKV l k v) k' = lookupKV l k' := by
  induction l with
  | nil => simp [putKV, lookupKV, Ne.symm h]
  | cons p rest ih =>
    obtain ⟨k₀, v₀⟩ := p
    by_cases hk : k = k₀
    · subst hk
      simp [putKV, lookupKV, Ne.symm h]
    · by_cases hlt : bytesLt k k₀
      · simp [putKV, hk, hlt, lookupKV, Ne.symm h]
      · simp [putKV, hk, hlt, lookupKV, ih]

theorem lookupBucket_append_self (s : Store) (n : Bytes) (b : Bucket)
    (h : lookupBucket s n = none) :
    lookupBucket (s ++ [(n, b)]) n = some b := by
  induction s with
  | nil => simp [lookupBucket]
  | cons p rest ih =>
    obtain ⟨n₀, b₀⟩ := p
    by_cases hn : n₀ = n
    · simp [lookupBucket, hn] at h
    · simp [lookupBucket, hn] at h ⊢
      exact ih h

theorem lookupBucket_append_ne (s : Store) (n : Bytes) (b : Bucket)
    (n' : Bytes) (h : n' ≠ n) :
    lookupBucket (s ++ [(n, b)]) n' = lookupBucket s n' := by
  induction s with
  | nil => simp [lookupBucket, Ne.symm h]
  | cons p rest ih =>
    obtain ⟨n₀, b₀⟩ := p
    by_cases hn : n₀ = n'
    · simp [lookupBucket, hn]
    · simp [lookupBucket, hn, ih]

theorem lookupBucket_updateBucket_self (s : Store) (n : Bytes)
    (f : Bucket → Bucket) (b : Bucket) (h : lookupBucket s n = some b) :
    lookupBucket (updateBucket s n f) n = some (f b) := by
  induction s with
  | nil => simp [lookupBucket] at h
  | cons p rest ih =>
    obtain ⟨n₀, b₀⟩ := p
    by_cases hn : n₀ = n
    · simp [lookupBucket, hn] at h
      simp [updateBucket, hn, lookupBucket, h]
    · simp [lookupBucket, hn] at h
      simp [updateBucket, hn, lookupBucket, ih h]

theorem lookupBucket_updateBucket_ne (s : Store) (n : Bytes)
    (f : Bucket → Bucket) (n' : Bytes) (h : n' ≠ n) :
    lookupBucket (updateBucket s n f) n' = lookupBucket s n' := by
  induction s with
  | nil => simp [updateBucket, lookupBucket]
  | cons p rest ih =>
    obtain ⟨n₀, b₀⟩ := p
    by_cases hn : n₀ = n
    · subst hn
      simp [updateBucket, lookupBucket, Ne.symm h]
    · by_cases hn' : n₀ = n'
      · simp [updateBucket, hn, lookupBucket, hn', h]
      · simp [updateBucket, hn, lookupBucket, hn', ih]

theorem lookupBucket_create_self (s : Store) (n : Bytes) :
    lookupBucket (createBucketIfNotExists s n) n =
      some ((lookupBucket s n).getD Bucket.empty) := by
  unfold createBucketIfNotExists
  cases h : lookupBucket s n with
  | some b => simp [h]
  | none => simp [lookupBucket_append_self s n Bucket.empty h]

theorem lookupBucket_create_ne (s : Store) (n n' : Bytes) (h : n' ≠ n) :
    lookupBucket (createBucketIfNotExists s n) n' = lookupBucket s n' := by
  unfold createBucketIfNotExists
  cases hl : lookupBucket s n with
  | some b => rfl
  | none => exact lookupBucket_append_ne s n Bucket.empty n' h

theorem lookupBucket_Set_self (s : Store) (bucket key value : Bytes) :
    lookupBucket (Set s bucket key value) bucket =
      some (let b := (lookupBucket s bucket).getD Bucket.empty
            { b with data := putKV b.data key value }) := by
  unfold Set
  exact lookupBucket_updateBucket_self _ _ _ _ (lookupBucket_create_self s bucket)

theorem get_after_set (s : Store) (B K V : Bytes) :
    Get (Set s B K V) B K = .ok (some V) := by
  unfold Get
  rw [lookupBucket_Set_self]
  simp [lookupKV_putKV_self]

theorem bytesLt_cons (a b : Nat) (as bs : Bytes) :
    bytesLt (a :: as) (b :: bs) = true ↔
      a < b ∨ (a = b ∧ bytesLt as bs = true) := by
  simp only [bytesLt]
  split_ifs with h1 h2 <;> simp_all

theorem sortedKeysB_chain' : ∀ l : List (Bytes × Bytes), sortedKeysB l = true →
    List.Chain' (fun p q : Bytes × Bytes => bytesLt p.1 q.1 = true) l := by
  intro l
  induction l with
  | nil => intro _; simp
  | cons p rest ih =>
    cases rest with
    | nil => intro _; simp
    | cons q rest' =>
      intro h
      simp only [sortedKeysB, Bool.and_eq_true] at h
      exact List.chain'_cons.mpr ⟨h.1, ih h.2⟩

theorem bytesLt_trans (x : Bytes) : ∀ y z, bytesLt x y = true →
    bytesLt y z = true → bytesLt x z = true := by
  induction x with
  | nil =>
    intro y z hxy hyz
    cases y with
    | nil => simp [bytesLt] at hxy
    | cons b bs =>
      cases z with
      | nil => simp [bytesLt] at hyz
      | cons c cs => simp [bytesLt]
  | cons a as ih =>
    intro y z hxy hyz
    cases y with
    | nil => simp [bytesLt] at hxy
    | cons b bs =>
      cases z with
      | nil => simp [bytesLt] at hyz
      | cons c cs =>
        rw [bytesLt_cons] at hxy hyz ⊢
        rcases hxy with h1 | ⟨h1, h1'⟩ <;> rcases hyz with h2 | ⟨h2, h2'⟩
        · exact Or.inl (lt_trans h1 h2)
        · exact Or.inl (h2 ▸ h1)
        · exact Or.inl (h1 ▸ h2)
        · exact Or.inr ⟨h1.trans h2, ih bs cs h1' h2'⟩

/-- Bucket names of a store are pairwise distinct.  bbolt's root mapping
keys buckets by name, so every reachable store satisfies this. -/
def NamesNodup (s : Store) : Prop := (s.map Prod.fst).Nodup

instance (s : Store) : Decidable (NamesNodup s) :=
  inferInstanceAs (Decidable (s.map Prod.fst).Nodup)

theorem lookupBucket_eq_none_of_not_mem (s : Store) (n : Bytes)
    (h : n ∉ s.map Prod.fst) : lookupBucket s n = none := by
  induction s with
  | nil => rfl
  | cons p rest ih =>
    obtain ⟨n₀, b₀⟩ := p
    simp only [List.map_cons, List.mem_cons] at h
    push_neg at h
    simp [lookupBucket, Ne.symm h.1, ih h.2]

theorem lookupBucket_removeBucket_self (s : Store) (n : Bytes)
    (h : NamesNodup s) : lookupBucket (removeBucket s n) n = none := by
  induction s with
  | nil => rfl
  | cons p rest ih =>
    obtain ⟨n₀, b₀⟩ := p
    unfold NamesNodup at h
    rw [List.map_cons, List.nodup_cons] at h
    by_cases hn : n₀ = n
    · subst hn
      simpa [removeBucket] using lookupBucket_eq_none_of_not_mem rest n₀ h.1
    · simp [removeBucket, hn, lookupBucket, ih h.2]

theorem createBucketIfNotExists_of_exists (s : Store) (n : Bytes)
    (b : Bucket) (h : lookupBucket s n = some b) :
    createBucketIfNotExists s n = s := by
  unfold createBucketIfNotExists
  rw [h]

/-! ## Big-endian encoding lemmas -/

theorem bytesLt_irrefl (l : Bytes) : bytesLt l l = false := by
  induction l with
  | nil => rfl
  | cons a as ih => simp [bytesLt, ih]

theorem ne_of_bytesLt (x y : Bytes) (h : bytesLt x y = true) : x ≠ y := by
  intro heq
  subst heq
  rw [bytesLt_irrefl] at h
  cases h

theorem digitsBE_mod (k : Nat) : ∀ v, digitsBE k (v % 256 ^ k) = digitsBE k v := by
  induction k with
  | zero => intro v; rfl
  | succ k ih =>
    intro v
    unfold digitsBE
    have hhead : v % 256 ^ (k + 1) / 256 ^ k % 256 = v / 256 ^ k % 256 := by
      have h1 : (256 : Nat) ^ (k + 1) = 256 ^ k * 256 := pow_succ 256 k
      rw [h1, Nat.mod_mul_right_div_self, Nat.mod_mod_of_dvd _ dvd_rfl]
    have htail : digitsBE k (v % 256 ^ (k + 1)) = digitsBE k v := by
      have h2 : v % 256 ^ (k + 1) % 256 ^ k = v % 256 ^ k :=
        Nat.mod_mod_of_dvd v (pow_dvd_pow 256 (Nat.le_succ k))
      calc digitsBE k (v % 256 ^ (k + 1))
          = digitsBE k (v % 256 ^ (k + 1) % 256 ^ k) := (ih _).symm
        _ = digitsBE k (v % 256 ^ k) := by rw [h2]
        _ = digitsBE k v := ih v
    rw [hhead, htail]

theorem digitsBE_lt (k : Nat) : ∀ a b, a < b → b < 256 ^ k →
    bytesLt (digitsBE k a) (digitsBE k b) = true := by
  induction k with
  | zero =>
    intro a b hab hb
    simp at hb
    omega
  | succ k ih =>
    intro a b hab hb
    have hpos : 0 < (256 : Nat) ^ k := Nat.pos_pow_of_pos k (by omega)
    have hqb : b / 256 ^ k < 256 := by
      rw [Nat.div_lt_iff_lt_mul hpos]
      calc b < 256 ^ (k + 1) := hb
        _ = 256 * 256 ^ k := by rw [pow_succ, Nat.mul_comm]
    have hqa : a / 256 ^ k < 256 :=
      lt_of_le_of_lt (Nat.div_le_div_right (le_of_lt hab)) hqb
    have ea : a / 256 ^ k % 256 = a / 256 ^ k := Nat.mod_eq_of_lt hqa
    have eb : b / 256 ^ k % 256 = b / 256 ^ k := Nat.mod_eq_of_lt hqb
    have hle : a / 256 ^ k ≤ b / 256 ^ k := Nat.div_le_div_right (le_of_lt hab)
    unfold digitsBE
    rcases lt_or_eq_of_le hle with hlt | heq
    · simp [bytesLt, ea, eb, hlt]
    · have htails : bytesLt (digitsBE k a) (digitsBE k b) = true := by
        have h1 : 256 ^ k * (b / 256 ^ k) + a % 256 ^ k = a := by
          rw [← heq]; exact Nat.div_add_mod a _
        have h2 : 256 ^ k * (b / 256 ^ k) + b % 256 ^ k = b := Nat.div_add_mod b _
        have hsum : 256 ^ k * (b / 256 ^ k) + a % 256 ^ k <
            256 ^ k * (b / 256 ^ k) + b % 256 ^ k := by
          rw [h1, h2]; exact hab
        have hmods : a % 256 ^ k < b % 256 ^ k := Nat.lt_of_add_lt_add_left hsum
        rw [← digitsBE_mod k a, ← digitsBE_mod k b]
        exact ih _ _ hmods (Nat.mod_lt b hpos)
      simp [bytesLt, ea, eb, heq, htails]

theorem itob_eq_digitsBE (v : Nat) : itob v = digitsBE 8 v := by
  norm_num [itob, digitsBE]

/-- Big-endian 8-byte encoding is strictly monotone below `2 ^ 64`. -/
theorem itob_lt (a b : Nat) (hab : a < b) (hb : b < 2 ^ 64) :
    bytesLt (itob a) (itob b) = true := by
  rw [itob_eq_digitsBE, itob_eq_digitsBE]
  exact digitsBE_lt 8 a b hab (by norm_num at hb ⊢; exact hb)

theorem lookupBucket_Append_self (s : Store) (B v : Bytes) :
    lookupBucket (Append s B v) B =
      some (let b := (lookupBucket s B).getD Bucket.empty
            { data := putKV b.data (itob ((b.seq + 1) % 2 ^ 64)) v,
              seq := (b.seq + 1) % 2 ^ 64 }) := by
  unfold Append
  rw [lookupBucket_updateBucket_self _ _ _ _ (lookupBucket_create_self s B)]
  rfl

theorem seqOf_Append (s : Store) (B v : Bytes) :
    seqOf (Append s B v) B = (seqOf s B + 1) % 2 ^ 64 := by
  unfold seqOf
  rw [lookupBucket_Append_self]
  rfl

/-! ## Claim theorems -/

/-- C1: for every store, bucket name B, key K and value V, `Set(B,K,V)`
followed by `Get(B,K)` returns exactly the stored bytes V; `Set` creates
the bucket if absent and upserts K to V. -/
theorem set_get_roundtrip (s : Store) (B K V : Bytes) :
    Get (Set s B K V) B K = .ok (some V) :=
  get_after_set s B K V

/-- C3: `Get(B,K)` fails with the bucket-not-found error when bucket B does
not exist, and returns an absent result (`none`) with no error when B
exists but K is absent in it. -/
theorem get_error_semantics (s : Store) (B K : Bytes) :
    (lookupBucket s B = none → Get s B K = .error (.bucketNotFound B)) ∧
    (∀ b, lookupBucket s B = some b → lookupKV b.data K = none →
      Get s B K = .ok none) := by
  constructor
  · intro h
    simp [Get, h]
  · intro b hb hk
    simp [Get, hb, hk]

/-- Witness for C3: on the empty store `Get` reports bucket-not-found; on a
store holding the empty bucket `[98]`, `Get` of an absent key returns
`none` without error. -/
theorem get_error_semantics_witness :
    Get ([] : Store) [98] [107] = .error (.bucketNotFound [98]) ∧
    Get [([98], Bucket.empty)] [98] [107] = .ok none :=
  ⟨(get_error_semantics [] [98] [107]).1 rfl,
   (get_error_semantics [([98], Bucket.empty)] [98] [107]).2 Bucket.empty
     (by decide) rfl⟩

/-- C7: `Delete(B,K)` fails with the bucket-not-found error when bucket B
does not exist, and succeeds without error when B exists — also when key K
is absent in B. -/
theorem delete_error_semantics (s : Store) (B K : Bytes) :
    (lookupBucket s B = none → Delete s B K = .error (.bucketNotFound B)) ∧
    (∀ b, lookupBucket s B = some b → ∃ s', Delete s B K = .ok s') := by
  constructor
  · intro h
    simp [Delete, h]
  · intro b hb
    exact ⟨updateBucket s B (fun bb => { bb with data := removeKV bb.data K }),
      by simp [Delete, hb]⟩

/-- Witness for C7: deleting in an absent bucket errors; deleting an absent
key inside an existing bucket succeeds. -/
theorem delete_error_semantics_witness :
    Delete ([] : Store) [98] [107] = .error (.bucketNotFound [98]) ∧
    ∃ s', Delete [([98], Bucket.empty)] [98] [107] = .ok s' :=
  ⟨(delete_error_semantics [] [98] [107]).1 rfl,
   (delete_error_semantics [([98], Bucket.empty)] [98] [107]).2 Bucket.empty
     (by decide)⟩

/-- C10: `Set(B,K,V)` modifies only the binding of key K in bucket B:
every other bucket is untouched (same bucket contents and structure), every
other key of B keeps its value, and the only structural change is that B
exists afterwards. -/
theorem set_frame (s : Store) (B K V : Bytes) :
    (∀ B', B' ≠ B → lookupBucket (Set s B K V) B' = lookupBucket s B') ∧
    (∀ K', K' ≠ K → valueAt (Set s B K V) B K' = valueAt s B K') ∧
    (lookupBucket (Set s B K V) B).isSome = true := by
  refine ⟨?_, ?_, ?_⟩
  · intro B' hB
    unfold Set
    rw [lookupBucket_updateBucket_ne _ _ _ _ hB, lookupBucket_create_ne _ _ _ hB]
  · intro K' hK
    unfold valueAt
    rw [lookupBucket_Set_self]
    cases h : lookupBucket s B with
    | some b => simp [h, lookupKV_putKV_ne _ _ _ _ hK]
    | none => simp [h, Bucket.empty, lookupKV_putKV_ne _ _ _ _ hK, lookupKV, Ne.symm hK]
  · rw [lookupBucket_Set_self]
    rfl

/-- Witness for C10: after `Set` into bucket `[98]`, an unrelated bucket
`[99]` and an unrelated key `[2]` are unchanged. -/
theorem set_frame_witness :
    lookupBucket (Set [([99], ⟨[([5], [6])], 0⟩)] [98] [1] [42]) [99] =
      lookupBucket [([99], ⟨[([5], [6])], 0⟩)] [99] ∧
    valueAt (Set [([99], ⟨[([5], [6])], 0⟩)] [98] [1] [42]) [98] [2] =
      valueAt [([99], ⟨[([5], [6])], 0⟩)] [98] [2] :=
  ⟨(set_frame [([99], ⟨[([5], [6])], 0⟩)] [98] [1] [42]).1 [99] (by decide),
   (set_frame [([99], ⟨[([5], [6])], 0⟩)] [98] [1] [42]).2.1 [2] (by decide)⟩

/-- Counterexample for C6: `DeleteBucket` on a nonexistent bucket does not
succeed — it returns the engine's bucket-not-found error (the claim says it
succeeds whether or not the bucket exists). -/
theorem deleteBucket_absent_errors :
    DeleteBucket ([] : Store) [98] = ([], some (.bucketNotFound [98])) := rfl

/-- C6 (amended): `CreateBucket` always succeeds and is idempotent;
`DeleteBucket` succeeds exactly when the bucket exists (removing it, so an
immediate second call fails), and fails with the bucket-not-found error
when the bucket is absent. -/
theorem createBucket_deleteBucket_semantics (s : Store) (B : Bytes) :
    (CreateBucket s B).2 = none ∧
    CreateBucket (CreateBucket s B).1 B = CreateBucket s B ∧
    (lookupBucket s B = none → DeleteBucket s B = (s, some (.bucketNotFound B))) ∧
    (∀ b, lookupBucket s B = some b →
      DeleteBucket s B = (removeBucket s B, none) ∧
      (NamesNodup s →
        DeleteBucket (removeBucket s B) B =
          (removeBucket s B, some (.bucketNotFound B)))) := by
  refine ⟨rfl, ?_, ?_, ?_⟩
  · show (createBucketIfNotExists (createBucketIfNotExists s B) B, none) = _
    rw [createBucketIfNotExists_of_exists _ _ _ (lookupBucket_create_self s B)]
    rfl
  · intro h
    simp [DeleteBucket, deleteBucketTx, h]
  · intro b hb
    refine ⟨by simp [DeleteBucket, deleteBucketTx, hb], ?_⟩
    intro hwf
    simp [DeleteBucket, deleteBucketTx, lookupBucket_removeBucket_self s B hwf]

/-- Witness for C6: on a one-bucket store, creating twice equals creating
once, deleting succeeds, and deleting again errors; on the empty store
deleting errors. -/
theorem createBucket_deleteBucket_semantics_witness :
    CreateBucket (CreateBucket ([] : Store) [98]).1 [98] = CreateBucket [] [98] ∧
    DeleteBucket ([] : Store) [98] = ([], some (.bucketNotFound [98])) ∧
    DeleteBucket [([98], Bucket.empty)] [98] =
      (removeBucket [([98], Bucket.empty)] [98], none) ∧
    DeleteBucket (removeBucket [([98], Bucket.empty)] [98]) [98] =
      (removeBucket [([98], Bucket.empty)] [98], some (.bucketNotFound [98])) :=
  ⟨(createBucket_deleteBucket_semantics [] [98]).2.1,
   (createBucket_deleteBucket_semantics [] [98]).2.2.1 rfl,
   ((createBucket_deleteBucket_semantics [([98], Bucket.empty)] [98]).2.2.2
       Bucket.empty (by decide)).1,
   ((createBucket_deleteBucket_semantics [([98], Bucket.empty)] [98]).2.2.2
       Bucket.empty (by decide)).2 (by decide)⟩

/-- Counterexample for C4: `ResetBucket` on a nonexistent bucket returns the
engine's bucket-not-found error and leaves the store unchanged, so the `Get`
issued immediately afterwards still reports bucket-not-found — not the
key-not-found result the claim promises for every bucket name. -/
theorem resetBucket_absent_errors :
    ResetBucket ([] : Store) [98] = ([], some (.bucketNotFound [98])) ∧
    Get ([] : Store) [98] [107] = .error (.bucketNotFound [98]) := ⟨rfl, rfl⟩

/-- C4 (amended): for every bucket B that exists in the store,
`ResetBucket(B)` succeeds in one write transaction, deleting and recreating
B empty, so that `Get(B, K)` issued immediately afterwards returns the
key-not-found result (`none`, no error) for every key K. -/
theorem resetBucket_existing (s : Store) (B : Bytes) (b : Bucket)
    (hb : lookupBucket s B = some b) (hwf : NamesNodup s) :
    ∃ s', ResetBucket s B = (s', none) ∧ ∀ K, Get s' B K = .ok none := by
  refine ⟨createBucketIfNotExists (removeBucket s B) B, ?_, ?_⟩
  · simp [ResetBucket, deleteBucketTx, hb]
  · intro K
    have hnone := lookupBucket_removeBucket_self s B hwf
    have hcr := lookupBucket_create_self (removeBucket s B) B
    rw [hnone] at hcr
    simp [Get, hcr, Bucket.empty, lookupKV]

/-- Witness for C4: resetting an existing non-empty bucket empties it and a
subsequent `Get` of its former key reports key-not-found. -/
theorem resetBucket_existing_witness :
    ∃ s', ResetBucket [([98], ⟨[([1], [2])], 3⟩)] [98] = (s', none) ∧
      ∀ K, Get s' [98] K = .ok none :=
  resetBucket_existing [([98], ⟨[([1], [2])], 3⟩)] [98] ⟨[([1], [2])], 3⟩
    (by decide) (by decide)

/-- Counterexample for C2: appended keys are NOT strictly increasing across
all calls.  On a bucket whose 64-bit sequence counter stands at
`2 ^ 64 - 2`, the next `Append` uses key `ff ff ff ff ff ff ff ff` and the
one after it wraps to key `00 00 00 00 00 00 00 00`, which is byte-wise
smaller. -/
theorem append_keys_wrap_cex :
    appendKey [([98], ⟨[], 2 ^ 64 - 2⟩)] [98] =
      [255, 255, 255, 255, 255, 255, 255, 255] ∧
    appendKey (Append [([98], ⟨[], 2 ^ 64 - 2⟩)] [98] [1]) [98] =
      [0, 0, 0, 0, 0, 0, 0, 0] ∧
    bytesLt (appendKey [([98], ⟨[], 2 ^ 64 - 2⟩)] [98])
      (appendKey (Append [([98], ⟨[], 2 ^ 64 - 2⟩)] [98] [1]) [98]) = false := by
  refine ⟨by decide, by decide, by decide⟩

/-- C2 (amended): as long as the bucket's 64-bit sequence counter does not
wrap (fewer than `2 ^ 64` appends in total), `Append(B,V1)` then
`Append(B,V2)` insert V1 and V2 under the 8-byte big-endian keys
`itob (n+1)` and `itob (n+2)` (n the current counter), and those keys are
strictly increasing under byte-wise comparison. -/
theorem append_keys_increasing (s : Store) (B v1 v2 : Bytes)
    (h : seqOf s B + 2 < 2 ^ 64) :
    valueAt (Append (Append s B v1) B v2) B (itob (seqOf s B + 1)) = some v1 ∧
    valueAt (Append (Append s B v1) B v2) B (itob (seqOf s B + 2)) = some v2 ∧
    bytesLt (itob (seqOf s B + 1)) (itob (seqOf s B + 2)) = true := by
  have h1 : (seqOf s B + 1) % 2 ^ 64 = seqOf s B + 1 := Nat.mod_eq_of_lt (by omega)
  have h2 : (seqOf s B + 1 + 1) % 2 ^ 64 = seqOf s B + 2 := by
    rw [Nat.mod_eq_of_lt (by omega)]
  have hlt : bytesLt (itob (seqOf s B + 1)) (itob (seqOf s B + 2)) = true :=
    itob_lt _ _ (by omega) (by omega)
  have hne : itob (seqOf s B + 1) ≠ itob (seqOf s B + 2) := ne_of_bytesLt _ _ hlt
  have hb1 := lookupBucket_Append_self s B v1
  have hb2 := lookupBucket_Append_self (Append s B v1) B v2
  rw [hb1] at hb2
  simp only [Option.getD_some] at hb2
  have hseq : ((lookupBucket s B).getD Bucket.empty).seq = seqOf s B := rfl
  rw [hseq, h1, h2] at hb2
  refine ⟨?_, ?_, hlt⟩
  · unfold valueAt
    rw [hb2]
    simp only [Option.some_bind]
    rw [lookupKV_putKV_ne _ _ _ _ hne, lookupKV_putKV_self]
  · unfold valueAt
    rw [hb2]
    simp only [Option.some_bind]
    rw [lookupKV_putKV_self]

/-- Witness for C2 (amended): two appends against a fresh store insert under
keys `itob 1 < itob 2`. -/
theorem append_keys_increasing_witness :
    valueAt (Append (Append ([] : Store) [98] [1]) [98] [2]) [98]
      (itob (seqOf ([] : Store) [98] + 1)) = some [1] ∧
    valueAt (Append (Append ([] : Store) [98] [1]) [98] [2]) [98]
      (itob (seqOf ([] : Store) [98] + 2)) = some [2] ∧
    bytesLt (itob (seqOf ([] : Store) [98] + 1))
      (itob (seqOf ([] : Store) [98] + 2)) = true :=
  append_keys_increasing [] [98] [1] [2] (by decide)

/-- Counterexample for C5: when the engine's `Batch` call fails on an
existing bucket, `SetJSONBatch` returns no error (the store is also
unchanged), although the claim says every engine/transaction failure is
returned to the immediate caller. -/
theorem setJSONBatch_swallows_engine_error :
    SetJSONBatch [([98], Bucket.empty)] [98] [107] (.ok [49]) false =
      ([([98], Bucket.empty)], none) := rfl

/-- C5 (amended): in `SetJSONBatch`, a serialization failure is returned to
the caller; a panic inside the batched callback (the nil-bucket dereference
when the bucket does not exist) is caught by the deferred recover and
logged, the function returning no error; and an engine/transaction failure
of `Batch` is also NOT returned — the function ends with `return nil`, so
the caller sees no error and the write is silently dropped.  Only the
successful branch applies the write. -/
theorem setJSONBatch_semantics (s : Store) (bucket key j : Bytes)
    (batchOk : Bool) :
    SetJSONBatch s bucket key (.error ()) batchOk =
      (s, some .serializationError) ∧
    (lookupBucket s bucket = none →
      SetJSONBatch s bucket key (.ok j) batchOk = (s, none)) ∧
    SetJSONBatch s bucket key (.ok j) false = (s, none) ∧
    (∀ b, lookupBucket s bucket = some b →
      SetJSONBatch s bucket key (.ok j) true =
        (updateBucket s bucket
          (fun bb => { bb with data := putKV bb.data key j }), none)) := by
  refine ⟨rfl, ?_, ?_, ?_⟩
  · intro h
    simp [SetJSONBatch, h]
  · unfold SetJSONBatch
    cases h : lookupBucket s bucket <;> simp [h]
  · intro b hb
    simp [SetJSONBatch, hb]

/-- Witness for C5: on a concrete store with bucket `[98]`, the
bucket-absent, batch-failure and success branches behave as stated. -/
theorem setJSONBatch_semantics_witness :
    SetJSONBatch [([98], Bucket.empty)] [98] [107] (.error ()) true =
      ([([98], Bucket.empty)], some .serializationError) ∧
    SetJSONBatch ([] : Store) [99] [107] (.ok [49]) true = ([], none) ∧
    SetJSONBatch [([98], Bucket.empty)] [98] [107] (.ok [49]) false =
      ([([98], Bucket.empty)], none) ∧
    SetJSONBatch [([98], Bucket.empty)] [98] [107] (.ok [49]) true =
      (updateBucket [([98], Bucket.empty)] [98]
        (fun bb => { bb with data := putKV bb.data [107] [49] }), none) :=
  ⟨(setJSONBatch_semantics [([98], Bucket.empty)] [98] [107] [49] true).1,
   (setJSONBatch_semantics [] [99] [107] [49] true).2.1 rfl,
   (setJSONBatch_semantics [([98], Bucket.empty)] [98] [107] [49] true).2.2.1,
   (setJSONBatch_semantics [([98], Bucket.empty)] [98] [107] [49] true).2.2.2
     Bucket.empty (by decide)⟩

/-- C8: given a codec satisfying the JSON library's round-trip contract,
`SetJSON(B,K,v)` followed by `GetJSON(B,K)` yields v back; `SetJSON` fails
with the serialization error exactly when v cannot be encoded;
`GetJSON` propagates the bucket-not-found error of the underlying `Get`;
and `GetJSON` fails with the serialization error when decoding the bytes
the `Get` returned fails. -/
theorem setJSON_getJSON_roundtrip {V : Type} (c : JsonCodec V)
    (hc : ∀ v j, c.marshal v = .ok j → c.unmarshal j = .ok v)
    (s : Store) (B K : Bytes) (v : V) :
    (∀ j, c.marshal v = .ok j →
      (SetJSON c s B K v).2 = none ∧
      GetJSON c (SetJSON c s B K v).1 B K = .ok v) ∧
    ((SetJSON c s B K v).2 = some .serializationError ↔
      ∃ e, c.marshal v = .error e) ∧
    (lookupBucket s B = none → GetJSON c s B K = .error (.bucketNotFound B)) ∧
    (∀ w, Get s B K = .ok w → ∀ e, c.unmarshal (w.getD []) = .error e →
      GetJSON c s B K = .error .serializationError) := by
  refine ⟨?_, ?_, ?_, ?_⟩
  · intro j hj
    refine ⟨by simp [SetJSON, hj], ?_⟩
    have hset : (SetJSON c s B K v).1 = Set s B K j := by simp [SetJSON, hj]
    rw [hset]
    unfold GetJSON
    rw [get_after_set s B K j]
    simp [hc v j hj]
  · unfold SetJSON
    cases h : c.marshal v with
    | error e => simp
    | ok j => simp
  · intro h
    simp [GetJSON, Get, h]
  · intro w hw e he
    unfold GetJSON
    rw [hw]
    simp [he]

/-- Witness for C8: storing 5 through the byte codec and reading it back
yields 5; `GetJSON` on the empty store reports bucket-not-found; and
`GetJSON` of a stored two-byte record the codec cannot decode reports the
serialization error. -/
theorem setJSON_getJSON_roundtrip_witness :
    (SetJSON natByteCodec ([] : Store) [98] [107] 5).2 = none ∧
    GetJSON natByteCodec (SetJSON natByteCodec ([] : Store) [98] [107] 5).1
      [98] [107] = .ok 5 ∧
    GetJSON natByteCodec ([] : Store) [98] [107] =
      .error (.bucketNotFound [98]) ∧
    GetJSON natByteCodec [([98], ⟨[([107], [1, 2])], 0⟩)] [98] [107] =
      .error .serializationError :=
  ⟨((setJSON_getJSON_roundtrip natByteCodec
      (fun v j h => by
        unfold natByteCodec at h ⊢
        by_cases hv : v < 256
        · simp [hv] at h
          subst h
          rfl
        · simp [hv] at h)
      [] [98] [107] 5).1 [5] rfl).1,
   ((setJSON_getJSON_roundtrip natByteCodec
      (fun v j h => by
        unfold natByteCodec at h ⊢
        by_cases hv : v < 256
        · simp [hv] at h
          subst h
          rfl
        · simp [hv] at h)
      [] [98] [107] 5).1 [5] rfl).2,
   (setJSON_getJSON_roundtrip natByteCodec
      (fun v j h => by
        unfold natByteCodec at h ⊢
        by_cases hv : v < 256
        · simp [hv] at h
          subst h
          rfl
        · simp [hv] at h)
      [] [98] [107] 5).2.2.1 rfl,
   (setJSON_getJSON_roundtrip natByteCodec
      (fun v j h => by
        unfold natByteCodec at h ⊢
        by_cases hv : v < 256
        · simp [hv] at h
          subst h
          rfl
        · simp [hv] at h)
      [([98], ⟨[([107], [1, 2])], 0⟩)] [98] [107] 5).2.2.2
     (some [1, 2]) rfl () rfl⟩

/-- C9: `AllFunc(B, fn)` fails with bucket-not-found when B does not exist;
over an existing bucket with N records it produces exactly the N callback
invocations, one per record in cursor order, and — the bucket's records
being in the engine's ascending key order — every key is visited exactly
once, in strictly ascending order. -/
theorem allFunc_coverage {α : Type} (s : Store) (B : Bytes)
    (fn : Bytes → Bytes → α) :
    (lookupBucket s B = none → AllFunc s B fn = .error (.bucketNotFound B)) ∧
    (∀ b, lookupBucket s B = some b → BucketSorted b →
      AllFunc s B fn = .ok (b.data.map (fun p => fn p.1 p.2)) ∧
      (b.data.map (fun p => fn p.1 p.2)).length = b.data.length ∧
      (b.data.map Prod.fst).Nodup ∧
      List.Chain' (fun k k' => bytesLt k k' = true) (b.data.map Prod.fst)) := by
  constructor
  · intro h
    simp [AllFunc, h]
  · intro b hb hsb
    unfold BucketSorted at hsb
    have hs := sortedKeysB_chain' b.data hsb
    refine ⟨by simp [AllFunc, hb], by simp, ?_, ?_⟩
    · haveI : IsTrans (Bytes × Bytes)
          (fun p q : Bytes × Bytes => bytesLt p.1 q.1 = true) :=
        ⟨fun p q r hpq hqr => bytesLt_trans p.1 q.1 r.1 hpq hqr⟩
      have hpair := List.chain'_iff_pairwise.mp hs
      have hne : b.data.Pairwise (fun p q : Bytes × Bytes => p.1 ≠ q.1) :=
        hpair.imp (fun h => ne_of_bytesLt _ _ h)
      exact List.pairwise_map.mpr hne
    · exact List.chain'_map_of_chain' Prod.fst (fun p q h => h) hs

/-- Witness for C9: over a two-record bucket the callback trace has both
records in ascending key order; over the empty store `AllFunc` errors. -/
theorem allFunc_coverage_witness :
    AllFunc ([] : Store) [98] (fun k v => (k, v)) =
      .error (.bucketNotFound [98]) ∧
    AllFunc [([98], ⟨[([1], [10]), ([2], [20])], 0⟩)] [98]
        (fun k v => (k, v)) = .ok [([1], [10]), ([2], [20])] ∧
    ([([1], [10]), ([2], [20])].map (Prod.fst (β := Bytes))).Nodup :=
  ⟨(allFunc_coverage [] [98] (fun k v => (k, v))).1 rfl,
   ((allFunc_coverage [([98], ⟨[([1], [10]), ([2], [20])], 0⟩)] [98]
       (fun k v => (k, v))).2 ⟨[([1], [10]), ([2], [20])], 0⟩
       (by decide) (by decide)).1,
   ((allFunc_coverage [([98], ⟨[([1], [10]), ([2], [20])], 0⟩)] [98]
       (fun k v => (k, v))).2 ⟨[([1], [10]), ([2], [20])], 0⟩
       (by decide) (by decide)).2.2.1⟩

end Blight
